import Mathlib

/-!
Verification of the random-access-storage-from dispatcher.

The module under study exports one function, written here as fromInput,
which classifies a heterogeneous input value (string, number, buffer-like
value, plain object, factory function, or nothing) and delegates to a
provider factory taken from a mutable provider registry. The embedding
below follows the source of the dispatcher (function from, src/example.js
lines 369-496, helpers isBufferLike lines 507-527 and isNumber lines
536-538, registry src/providers.js). The provider factories themselves,
the url module and the Buffer constructors are external collaborators of
the repository: calls into them are represented symbolically by the
Outcome and BufExpr data below, and the few facts needed about them
(the protocol grammar of url.parse, the size contract of Buffer.alloc)
are modelled from their documentation, as marked on each such definition.
-/

namespace RASFrom

/-- Default encoding constant DEFAULT_ENCODING (src/example.js line 356). -/
def DEFAULT_ENCODING : String := "utf8"

/-- Modelled ECMAScript number: not-a-number, the two infinities, or a
finite value, approximated by a rational (no claim here depends on
floating-point rounding). -/
inductive JSNum where
  | nan
  | inf
  | negInf
  | finite (q : ℚ)

/-- Model of the JavaScript values the dispatcher classifies. Native
byte buffers and functions are opaque to the dispatcher and carry only
an identity tag; an array-buffer additionally carries its byte length,
which the Buffer.from bounds check of the array-buffer rule reads.
Plain objects carry their named fields; arrays carry their element
list. -/
inductive JSValue where
  | undefined
  | null
  | boolean (b : Bool)
  | num (n : JSNum)
  | str (s : String)
  | buffer (id : Nat)
  | arrayBuffer (id : Nat) (byteLen : Nat)
  | array (elems : List JSValue)
  | func (id : Nat)
  | obj (fields : List (String × JSValue))

/-- The typeof operator on modelled values. -/
def jsTypeof : JSValue → String
  | .undefined => "undefined"
  | .null => "object"
  | .boolean _ => "boolean"
  | .num _ => "number"
  | .str _ => "string"
  | .buffer _ => "object"
  | .arrayBuffer _ _ => "object"
  | .array _ => "object"
  | .func _ => "function"
  | .obj _ => "object"

/-- JavaScript truthiness of a modelled value. -/
def truthy : JSValue → Bool
  | .undefined => false
  | .null => false
  | .boolean b => b
  | .num .nan => false
  | .num .inf => true
  | .num .negInf => true
  | .num (.finite q) => if q = 0 then false else true
  | .str s => s.length != 0
  | .buffer _ => true
  | .arrayBuffer _ _ => true
  | .array _ => true
  | .func _ => true
  | .obj _ => true

/-- Strict equality with the boolean literal true (the check
true === opts.file on src/example.js line 392). -/
def strictTrue : JSValue → Bool
  | .boolean true => true
  | _ => false

/-- Property read on a field list: first binding wins, absent fields
read as undefined. -/
def getField : List (String × JSValue) → String → JSValue
  | [], _ => .undefined
  | kv :: rest, name => if kv.1 == name then kv.2 else getField rest name

/-- Property assignment on a field list: overwrite the first binding of
the name, or append a new binding. -/
def setField : List (String × JSValue) → String → JSValue → List (String × JSValue)
  | [], name, v => [(name, v)]
  | kv :: rest, name, v =>
    if kv.1 == name then (name, v) :: rest else kv :: setField rest name v

/-- Property lookup distinguishing absence (the name-in-object check on
src/example.js line 418). -/
def lookupField : List (String × JSValue) → String → Option JSValue
  | [], _ => none
  | kv :: rest, name => if kv.1 == name then some kv.2 else lookupField rest name

/-- The check null !== v and typeof v is object (src/example.js
lines 376 and 477 and 516). -/
def isObjectNonNull : JSValue → Bool
  | .null => false
  | .boolean _ => false
  | .num _ => false
  | .str _ => false
  | .undefined => false
  | .func _ => false
  | .buffer _ => true
  | .arrayBuffer _ _ => true
  | .array _ => true
  | .obj _ => true

/-- Named fields of a value used as an options record. Arrays and native
buffers are object-typed in JavaScript but carry none of the recognized
option fields in this model. -/
def fieldsOfObject : JSValue → List (String × JSValue)
  | .obj fields => fields
  | _ => []

/-- Property read on an arbitrary value (plain objects only; every other
shape reads as undefined for the field names the dispatcher inspects). -/
def fieldOfValue : JSValue → String → JSValue
  | .obj fields, name => getField fields name
  | _, _ => .undefined

/-- Predicate isNumber (src/example.js lines 536-538): typeof is number
and the value equals itself, which excludes exactly not-a-number. -/
def isNumberV : JSValue → Bool
  | .num .nan => false
  | .num _ => true
  | _ => false

/-- The comparison input >= 0 as evaluated on src/example.js line 451
(only ever reached on number inputs; comparisons with not-a-number are
false). -/
def jsGeZero : JSValue → Bool
  | .num (.finite q) => decide (0 ≤ q)
  | .num .inf => true
  | _ => false

/-- Numeric payload of a value (only used under an isNumberV guard). -/
def numOf : JSValue → JSNum
  | .num n => n
  | _ => .nan

/-- Strict equality of a value with a string literal (the check
Buffer === input.type on src/example.js line 517). -/
def strictEqStr (v : JSValue) (s : String) : Bool :=
  match v with
  | .str t => t == s
  | _ => false

/-- Array.isArray on modelled values. -/
def isJSArray : JSValue → Bool
  | .array _ => true
  | _ => false

/-- Predicate isBufferLike (src/example.js lines 507-527): a native
buffer, an array-buffer, a record shaped like a serialized buffer
(a type field strictly equal to the string Buffer and an array data
field), or an array whose every element satisfies isNumber. -/
def isBufferLike (input : JSValue) : Bool :=
  match input with
  | .buffer _ => true
  | .arrayBuffer _ _ => true
  | _ =>
    if isObjectNonNull input then
      if strictEqStr (fieldOfValue input "type") "Buffer"
          && isJSArray (fieldOfValue input "data") then true
      else
        match input with
        | .array elems => elems.all isNumberV
        | _ => false
    else false

/-- The options record after the first two normalization steps
(src/example.js lines 370-378): a string argument becomes an encoding
record, a non-null object-typed argument is used as-is (aliasing the
caller record), anything else yields the empty record. -/
def baseOpts (optsOrEncoding : JSValue) : List (String × JSValue) :=
  let opts : List (String × JSValue) :=
    match optsOrEncoding with
    | .str e => [("encoding", .str e)]
    | _ => []
  if isObjectNonNull optsOrEncoding then fieldsOfObject optsOrEncoding else opts

/-- The encoding defaulting step (src/example.js lines 380-382): the
condition is not-opts.encoding OR typeof opts.encoding is not string, so
a falsy encoding (in particular the empty string) is also replaced. When
the options argument was an object this assignment mutates the caller
record in place, so the result below is also the content of the caller
record after the call. -/
def applyEncodingDefault (m : List (String × JSValue)) : List (String × JSValue) :=
  if !truthy (getField m "encoding") || !(jsTypeof (getField m "encoding") == "string") then
    setField m "encoding" (.str DEFAULT_ENCODING)
  else m

/-- Options normalization of the dispatcher (src/example.js
lines 370-382). -/
def normalizeOpts (optsOrEncoding : JSValue) : List (String × JSValue) :=
  applyEncodingDefault (baseOpts optsOrEncoding)

/-- Modelled from the spec and the claim wording of C7, for comparison
with the source normalization: the encoding field is replaced only when
it is missing or not a string. The source (normalizeOpts) additionally
replaces falsy string encodings, that is the empty string. -/
def normalizeOptsClaim (optsOrEncoding : JSValue) : List (String × JSValue) :=
  let m := baseOpts optsOrEncoding
  match getField m "encoding" with
  | .undefined => setField m "encoding" (.str DEFAULT_ENCODING)
  | v =>
    if !(jsTypeof v == "string") then setField m "encoding" (.str DEFAULT_ENCODING)
    else m

/-- Characters admitted in a scheme by the protocol pattern of the
legacy Node url.parse, an external collaborator. Modelled from its
documented pattern: one or more of letters, digits, dot, plus, minus,
at the start of the string, followed by a colon. -/
def isProtoChar (c : Char) : Bool :=
  c.isAlpha || c.isDigit || c == '.' || c == '+' || c == '-'

/-- Longest run of scheme characters at the head of a character list. -/
def takeProtoChars : List Char → List Char
  | [] => []
  | c :: cs => if isProtoChar c then c :: takeProtoChars cs else []

/-- Head test for an exact character sequence. -/
def listStartsWith : List Char → List Char → Bool
  | _, [] => true
  | [], _ :: _ => false
  | c :: cs, d :: ds => c == d && listStartsWith cs ds

/-- Contiguous occurrence of one character sequence inside another. -/
def listContainsSub : List Char → List Char → Bool
  | [], needle => needle.isEmpty
  | c :: rest, needle => listStartsWith (c :: rest) needle || listContainsSub rest needle

/-- Modelled from the legacy Node url.parse (external collaborator):
the protocol of a string, lowercased and keeping its trailing colon, or
none when the string does not start with a scheme. Parsing never fails;
a string without a scheme simply has no protocol. -/
def urlProtocol (s : String) : Option String :=
  let p := takeProtoChars s.data
  if p.length != 0 then
    match s.data.drop p.length with
    | ':' :: _ => some (String.mk (p.map Char.toLower ++ [':']))
    | _ => none
  else none

/-- The expression protocol.slice(0, -1) of src/example.js line 399:
the protocol with its trailing colon stripped. -/
def stripColon (p : String) : String := String.mk p.data.dropLast

/-- Modelled from the legacy Node url.parse (external collaborator),
simplified: the pathname component of the string, or null when absent.
No claim depends on the value of this field; it only records which
argument the dispatcher forwards for file protocol input. -/
def urlPathname (s : String) : JSValue :=
  match urlProtocol s with
  | none => if s.length == 0 then .null else .str s
  | some p =>
    let rest := s.drop p.length
    if rest.startsWith "//" then
      let afterSlashes := rest.drop 2
      let path := afterSlashes.drop ((afterSlashes.takeWhile (fun c => c != '/')).length)
      if path.length == 0 then .null
      else .str (path.takeWhile (fun c => c != '?' && c != '#'))
    else
      if rest.length == 0 then .null
      else .str (rest.takeWhile (fun c => c != '?' && c != '#'))

/-- Substring test: the regex tests of src/example.js lines 404 and 411
are unanchored, so the pattern may match anywhere inside the protocol. -/
def strContains (hay needle : String) : Bool :=
  listContainsSub hay.data needle.data

/-- Lowercasing of a string, characters mapped by Char.toLower. -/
def strToLower (s : String) : String := String.mk (s.data.map Char.toLower)

/-- Modelled from the Node Buffer documentation (external
collaborator): the character encodings Buffer.from(string, encoding)
accepts, matched case-insensitively; every other name is rejected with
an unknown-encoding error. -/
def isKnownEncoding (enc : String) : Bool :=
  ["utf8", "utf-8", "hex", "base64", "base64url", "ascii", "latin1",
   "binary", "ucs2", "ucs-2", "utf16le", "utf-16le"].contains (strToLower enc)

/-- Dispatcher-level failures: the documented error paths of the
Buffer calls the dispatcher performs while materializing the memory
provider argument, modelled from the Node Buffer documentation
(external collaborator). Buffer.alloc requires a size between 0 and
the maximum buffer length, so an infinite size is rejected on every
platform (the platform-dependent finite upper bound is idealized as
unbounded); Buffer.from on a string rejects an unknown encoding name;
Buffer.from on an array buffer rejects a byte offset or length outside
the buffer bounds. -/
inductive JSErr where
  | allocSizeOutOfRange
  | unknownEncoding
  | bufferBoundsOutOfRange

/-- Symbolic byte-buffer expressions: the Buffer constructor calls the
dispatcher performs when materializing a provider argument
(src/example.js lines 443, 452, 465, 467). -/
inductive BufExpr where
  | fromStr (s : String) (enc : String)
  | alloc (size : ℚ)
  | fromArrayBuf (id : Nat) (byteOffset : JSValue) (len : JSValue)
  | fromVal (v : JSValue) (enc : String)

/-- Buffer.alloc on a modelled number, following the modelled size
contract: finite non-negative sizes succeed, all other numbers are
rejected with a range error. -/
def bufferAlloc : JSNum → Except JSErr BufExpr
  | .finite q => if 0 ≤ q then .ok (.alloc q) else .error .allocSizeOutOfRange
  | _ => .error .allocSizeOutOfRange

/-- Buffer.from on a string with an encoding (src/example.js line 443),
modelled from the Node Buffer documentation (external collaborator): a
known encoding yields the encoded bytes, kept symbolic here; an unknown
encoding name is rejected with a type error. For non-string, non-array-
buffer input the second argument of Buffer.from is not an encoding and
is ignored, so the buffer-like call on line 467 performs no such
validation. -/
def bufferFromString (s enc : String) : Except JSErr BufExpr :=
  if isKnownEncoding enc then .ok (.fromStr s enc) else .error .unknownEncoding

/-- Modelled ToNumber coercion (external, ECMAScript): numbers map to
themselves, undefined to not-a-number, null and false to zero, true to
one. Numeric string parsing and object valueOf chains are not
modelled: those shapes are treated as not-a-number, which agrees with
the coercion of every non-numeric string. -/
def toNumberModel : JSValue → JSNum
  | .num n => n
  | .undefined => .nan
  | .null => .finite 0
  | .boolean false => .finite 0
  | .boolean true => .finite 1
  | _ => .nan

/-- The length argument of Buffer.from on an array buffer, modelled
from the Node Buffer documentation (external collaborator): an
undefined length means the remainder of the buffer; otherwise the
value is coerced to a number, non-positive results (including
not-a-number) mean a zero length, and a positive length beyond the
remainder maxLen is rejected. -/
def lengthCheck (maxLen : ℚ) (lenArg : JSValue) : Except JSErr Unit :=
  match lenArg with
  | .undefined => .ok ()
  | v =>
    match toNumberModel v with
    | .finite l => if 0 < l ∧ maxLen < l then .error .bufferBoundsOutOfRange else .ok ()
    | .inf => .error .bufferBoundsOutOfRange
    | _ => .ok ()

/-- The bounds check of Buffer.from(arrayBuffer, byteOffset, length)
(src/example.js line 465), modelled from the Node Buffer documentation
(external collaborator): the byte offset is coerced to a number with
not-a-number becoming zero; an offset beyond the buffer byte length is
rejected, and so is a negative or non-finite offset (the underlying
typed-array construction rejects it); then the length argument is
checked against the remaining bytes. -/
def fromArrayBufCheck (byteLen : Nat) (byteOffset lenArg : JSValue) : Except JSErr Unit :=
  match toNumberModel byteOffset with
  | .nan => lengthCheck (byteLen : ℚ) lenArg
  | .inf => .error .bufferBoundsOutOfRange
  | .negInf => .error .bufferBoundsOutOfRange
  | .finite off =>
    if off < 0 ∨ (byteLen : ℚ) < off then .error .bufferBoundsOutOfRange
    else lengthCheck ((byteLen : ℚ) - off) lenArg

/-- Argument list of a provider factory call. -/
inductive ProviderArgs where
  | inputOpts (input : JSValue) (opts : List (String × JSValue))
  | inputOnly (input : JSValue)
  | buf (b : BufExpr)

/-- Result of one dispatch: a provider factory call named by its
registry key, the identity return of the input object (src/example.js
line 480), or the wrap of the input through the generic
random-access-storage constructor (line 482). -/
inductive Outcome where
  | call (provider : String) (args : ProviderArgs)
  | pass (v : JSValue)
  | rasWrap (v : JSValue)

/-- The environment of a dispatch: the browser predicate, the result of
the filesystem probe of src/example.js lines 430-431 (none when
accessSync or statSync raises, some of the isFile answer otherwise), the
provider registry object, and the behaviour of opaque factory-function
inputs. -/
structure Env where
  isBrowser : Bool
  statFile : String → Option Bool
  providers : List (String × JSValue)
  applyFunc : Nat → List (String × JSValue) → JSValue

/-- Registration of a provider (an assignment providers[name] = v on
the registry object): no validation of the value is performed. -/
def registerProvider (provs : List (String × JSValue)) (name : String) (v : JSValue) :
    List (String × JSValue) :=
  setField provs name v

/-- Modelled from the ECMAScript Object.prototype (external): the
property names a plain object inherits, with function values for its
methods; the sole non-function, the __proto__ accessor, reads as an
object. The registry of src/providers.js is a plain object, so the
name-in-object check of src/example.js line 418 also answers true for
these names. Among them only constructor can be named by a lowercased
URL protocol, and it reads as the inherited Object constructor, a
function. -/
def objectPrototypeProps : List (String × JSValue) :=
  [("constructor", .func 100),
   ("hasOwnProperty", .func 101),
   ("isPrototypeOf", .func 102),
   ("propertyIsEnumerable", .func 103),
   ("toLocaleString", .func 104),
   ("toString", .func 105),
   ("valueOf", .func 106),
   ("__defineGetter__", .func 107),
   ("__defineSetter__", .func 108),
   ("__lookupGetter__", .func 109),
   ("__lookupSetter__", .func 110),
   ("__proto__", .obj [])]

/-- The property presence check and property read of src/example.js
lines 418-419 on the registry object: the in operator traverses the
prototype chain, so an own registry entry is found first and otherwise
the properties inherited from Object.prototype answer the check, with
the property read seeing the same (possibly inherited) value. -/
def lookupProvider (provs : List (String × JSValue)) (name : String) : Option JSValue :=
  match lookupField provs name with
  | some v => some v
  | none => lookupField objectPrototypeProps name

/-- The protocol block of the string rules (src/example.js
lines 397-423): the unanchored https and file regex tests, then the
name-in-registry check of the protocol name with the colon stripped
(which also sees the properties a plain object inherits from
Object.prototype), guarded by a typeof function check. A non-function
entry and a name absent from the whole chain both fall through
(result none). -/
def classifyProtocol (env : Env) (s : String) (opts : List (String × JSValue)) :
    Option Outcome :=
  match urlProtocol s with
  | none => none
  | some protocol =>
    if strContains protocol "http:" || strContains protocol "https:" then
      some (.call "http" (.inputOpts (.str s) opts))
    else if strContains protocol "file:" then
      some (.call "file" (.inputOnly (urlPathname s)))
    else
      match lookupProvider env.providers (stripColon protocol) with
      | some v =>
        if jsTypeof v == "function" then
          some (.call (stripColon protocol) (.inputOpts (.str s) opts))
        else none
      | none => none

/-- The filesystem probe of the string rules (src/example.js
lines 428-437): skipped in a browser; a probe failure is swallowed and
falls through; an existing regular file is delegated to the file
provider with the raw string and no options. -/
def classifyFs (env : Env) (s : String) : Option Outcome :=
  if !env.isBrowser then
    match env.statFile s with
    | some true => some (.call "file" (.inputOnly (.str s)))
    | _ => none
  else none

/-- Encoding field of a normalized options record as a string (after
normalization it is always a string field). -/
def encodingOf (opts : List (String × JSValue)) : String :=
  match getField opts "encoding" with
  | .str e => e
  | _ => ""

/-- Result of the string rules once the file override and the protocol
block have fallen through, for a non-empty string: the filesystem
probe, then the memory rule with its Buffer.from(string, encoding)
materialization (src/example.js lines 428-444), which fails on an
unknown encoding name. -/
def fallThroughResult (env : Env) (s : String) (opts : List (String × JSValue)) :
    Except JSErr Outcome :=
  match classifyFs env s with
  | some r => .ok r
  | none => (bufferFromString s (encodingOf opts)).map fun b => Outcome.call "memory" (.buf b)

/-- The string rules of the dispatcher (src/example.js lines 386-445),
in source order: the opts.file override guarded by a truthy length, the
protocol block, the filesystem probe, and the non-empty-string memory
rule, whose Buffer.from(string, encoding) materialization can fail on
an unknown encoding name. A result of none means the (necessarily
empty) string falls out of the string block. -/
def classifyString (env : Env) (s : String) (opts : List (String × JSValue)) :
    Option (Except JSErr Outcome) :=
  if s.length != 0 && strictTrue (getField opts "file") then
    some (.ok (.call "file" (.inputOpts (.str s) opts)))
  else
    match classifyProtocol env s opts with
    | some r => some (.ok r)
    | none =>
      match classifyFs env s with
      | some r => some (.ok r)
      | none =>
        if s.length > 0 then
          some ((bufferFromString s (encodingOf opts)).map fun b => Outcome.call "memory" (.buf b))
        else none

/-- The JavaScript expression v || 0 applied to opts.byteOffset on
src/example.js line 465. -/
def jsOrZero (v : JSValue) : JSValue :=
  if truthy v then v else .num (.finite 0)

/-- The dispatcher, function from of src/example.js lines 369-496. The
fuel argument bounds the re-dispatch recursion on factory-function input
(line 490), which the source leaves unbounded; none is returned exactly
when the fuel runs out, that is when the source recursion has not come
back after that many steps. Every other path yields some result: either
an ok outcome, or one of the modelled errors raised while the
dispatcher materializes the memory provider argument (Buffer.alloc on
line 452, Buffer.from on a string on line 443, Buffer.from on an array
buffer on line 465). -/
def fromInput (env : Env) : Nat → JSValue → JSValue → Option (Except JSErr Outcome)
  | 0, _, _ => none
  | fuel + 1, input, optsOrEncoding =>
    let opts := normalizeOpts optsOrEncoding
    let strRes : Option (Except JSErr Outcome) :=
      match input with
      | .str s => classifyString env s opts
      | _ => none
    match strRes with
    | some r => some r
    | none =>
      if isNumberV input && jsGeZero input then
        some ((bufferAlloc (numOf input)).map fun b => Outcome.call "memory" (.buf b))
      else if isBufferLike input then
        match input with
        | .arrayBuffer abid byteLen =>
          match fromArrayBufCheck byteLen (jsOrZero (getField opts "byteOffset"))
              (getField opts "length") with
          | .error e => some (.error e)
          | .ok _ =>
            some (.ok (.call "memory"
              (.buf (.fromArrayBuf abid (jsOrZero (getField opts "byteOffset"))
                (getField opts "length")))))
        | _ => some (.ok (.call "memory" (.buf (.fromVal input (encodingOf opts)))))
      else if isObjectNonNull input then
        if truthy (fieldOfValue input "readable") || truthy (fieldOfValue input "writable")
            || truthy (fieldOfValue input "statable")
            || truthy (fieldOfValue input "deletable") then
          some (.ok (.pass input))
        else
          some (.ok (.rasWrap input))
      else
        match input with
        | .func fid => fromInput env fuel (env.applyFunc fid opts) (.obj opts)
        | _ => some (.ok (.call "default" (.inputOpts input opts)))

/-- Length of the buffer produced by Buffer.alloc on a finite
non-negative size: the fractional part is truncated (the typed-array
length conversion of the underlying allocation). -/
def allocLen (q : ℚ) : Nat := q.num.toNat / q.den

/-- One byte of a numeric array element as converted by Buffer.from on
an array (conversion to an unsigned eight-bit integer: truncation toward
zero, then reduction modulo 256). -/
def jsByte : JSValue → Nat
  | .num (.finite q) =>
    if 0 ≤ q.num then (q.num.toNat / q.den) % 256
    else (256 - ((-q.num).toNat / q.den) % 256) % 256
  | _ => 0

/-- Concrete byte content of the buffer expressions whose content the
claims inspect: a zero-filled allocation and a numeric array. String
encodings stay symbolic (none). -/
def bufBytes : BufExpr → Option (List Nat)
  | .alloc q => some (List.replicate (allocLen q) 0)
  | .fromVal (.array l) _ => some (l.map jsByte)
  | _ => none

/-- The registry of src/providers.js: memory, http, file and default
(set to memory) are present at startup; the factory identities are
opaque. -/
def builtinProviders : List (String × JSValue) :=
  [("memory", .func 0), ("http", .func 1), ("file", .func 2), ("default", .func 0)]

/-- A concrete non-browser environment where no string names an
existing file, used by the concrete witnesses. -/
def sampleEnv : Env where
  isBrowser := false
  statFile := fun _ => none
  providers := builtinProviders
  applyFunc := fun _ _ => .undefined

/-- Environment with a custom provider function registered under the
name xhttp. -/
def envXhttp : Env :=
  { sampleEnv with providers := registerProvider builtinProviders "xhttp" (.func 7) }

/-- Environment with a custom provider function registered under the
name data. -/
def envData : Env :=
  { sampleEnv with providers := registerProvider builtinProviders "data" (.func 7) }

/-- Environment where a non-function value was registered under the
name data. -/
def envDataBad : Env :=
  { sampleEnv with providers := registerProvider builtinProviders "data" (.str "oops") }

/-- Environment where a non-function value was registered under the
name blah. -/
def envBlahBad : Env :=
  { sampleEnv with providers := registerProvider builtinProviders "blah" (.num (.finite 1)) }


/-! Helper lemmas about field maps, strings and the classification
stages, shared by the claim theorems below. -/

theorem getField_setField_self (m : List (String × JSValue)) (k : String) (v : JSValue) :
    getField (setField m k v) k = v := by
  induction m with
  | nil => simp [setField, getField]
  | cons kv rest ih =>
    by_cases h : kv.1 = k
    · simp [setField, getField, h]
    · simp [setField, getField, h, ih]

theorem getField_setField_ne (m : List (String × JSValue)) (k k' : String) (v : JSValue)
    (hk : k' ≠ k) : getField (setField m k v) k' = getField m k' := by
  induction m with
  | nil => simp [setField, getField, Ne.symm hk]
  | cons kv rest ih =>
    by_cases h : kv.1 = k
    · simp [setField, getField, h, Ne.symm hk]
    · simp [setField, getField, h, ih]

theorem string_length_ne_zero {s : String} (h : s ≠ "") : s.length ≠ 0 := by
  cases s with
  | mk data =>
    cases data with
    | nil => exact absurd rfl h
    | cons a l => simp [String.length]

theorem urlProtocol_length_ne_zero {s p : String} (hp : urlProtocol s = some p) :
    s.length ≠ 0 := by
  intro h0
  have hs : s = "" := by
    cases s with
    | mk data =>
      cases data with
      | nil => rfl
      | cons a l => simp [String.length] at h0
  subst hs
  rw [show urlProtocol "" = none by decide] at hp
  exact Option.noConfusion hp

theorem applyEncodingDefault_encoding (m : List (String × JSValue)) :
    ∃ e : String, getField (applyEncodingDefault m) "encoding" = JSValue.str e ∧ e ≠ "" := by
  unfold applyEncodingDefault
  cases hg : getField m "encoding"
  case str e =>
    by_cases he : e = ""
    · subst he
      rw [if_pos (by simp [truthy])]
      exact ⟨DEFAULT_ENCODING, getField_setField_self m "encoding" _, by decide⟩
    · rw [if_neg (by simp [truthy, jsTypeof, string_length_ne_zero he])]
      exact ⟨e, hg, he⟩
  all_goals
    rw [if_pos (by simp [truthy, jsTypeof])]
    exact ⟨DEFAULT_ENCODING, getField_setField_self m "encoding" _, by decide⟩

theorem fromInput_str (env : Env) (fuel : Nat) (s : String) (oo : JSValue) :
    fromInput env (fuel + 1) (.str s) oo =
      match classifyString env s (normalizeOpts oo) with
      | some r => some r
      | none => some (.ok (.call "default" (.inputOpts (.str s) (normalizeOpts oo)))) := by
  cases h : classifyString env s (normalizeOpts oo) with
  | some r => simp [fromInput, h]
  | none => simp [fromInput, h, isNumberV, jsGeZero, isBufferLike, isObjectNonNull]

theorem classifyProtocol_none_of_no_proto (env : Env) (s : String)
    (opts : List (String × JSValue)) (hp : urlProtocol s = none) :
    classifyProtocol env s opts = none := by
  unfold classifyProtocol
  rw [hp]

theorem classifyFs_none (env : Env) (s : String) (h : env.statFile s ≠ some true) :
    classifyFs env s = none := by
  unfold classifyFs
  cases hb : env.isBrowser with
  | false =>
    cases hf : env.statFile s with
    | none => rfl
    | some b =>
      cases b with
      | false => rfl
      | true => exact absurd hf h
  | true => rfl

theorem classifyString_fallthrough (env : Env) (s : String) (opts : List (String × JSValue))
    (hfile : strictTrue (getField opts "file") = false)
    (hcp : classifyProtocol env s opts = none) :
    classifyString env s opts =
      match classifyFs env s with
      | some r => some (.ok r)
      | none =>
        if s.length > 0 then
          some ((bufferFromString s (encodingOf opts)).map fun b => Outcome.call "memory" (.buf b))
        else none := by
  unfold classifyString
  rw [hfile, hcp]
  simp


/-! Claim theorems. -/

/-- C7 counterexample: the normalization procedure as worded by the
claim (replace the encoding only when missing or not a string) keeps an
empty-string encoding, contradicting the claimed invariant that the
encoding in effect is always a non-empty string; the source also
replaces falsy encodings and yields the default instead. -/
theorem claim_c7_counterexample :
    getField (normalizeOptsClaim (.str "")) "encoding" = .str "" ∧
    getField (normalizeOpts (.str "")) "encoding" = .str "utf8" :=
  ⟨rfl, rfl⟩

/-- C7 amended: for every optionsOrEncoding argument the normalized
record in effect when classification begins has a non-empty string
encoding field; the defaulting condition of the source is that the
encoding is falsy or not a string, so the empty string is also replaced
by utf8, and normalization always succeeds. -/
theorem claim_c7_amended (optsOrEncoding : JSValue) :
    ∃ e : String,
      getField (normalizeOpts optsOrEncoding) "encoding" = JSValue.str e ∧ e ≠ "" :=
  applyEncodingDefault_encoding (baseOpts optsOrEncoding)

/-- C8 counterexample: dispatch mutates the caller options record. With
a record containing only a file field, normalization (performed by the
source in place on that very record) adds an encoding field, so the
record does not keep the same field values across the call. -/
theorem claim_c8_counterexample :
    getField [("file", JSValue.boolean true)] "encoding" = .undefined ∧
    normalizeOpts (.obj [("file", .boolean true)]) =
      [("file", .boolean true), ("encoding", .str "utf8")] :=
  ⟨rfl, rfl⟩

/-- C8 amended: beyond invoking a provider factory and the read-only
filesystem probe of the string rules, the only side effect of a dispatch
is the in-place normalization of the caller options record: the record
is left unchanged except that its encoding field may be set to the
default encoding, and every other field keeps its value; the input value
itself is never written to. -/
theorem claim_c8_amended (fields : List (String × JSValue)) :
    (normalizeOpts (.obj fields) = fields ∨
      normalizeOpts (.obj fields) = setField fields "encoding" (.str DEFAULT_ENCODING)) ∧
    ∀ k : String, k ≠ "encoding" →
      getField (normalizeOpts (.obj fields)) k = getField fields k := by
  have hb : normalizeOpts (.obj fields) = applyEncodingDefault fields := rfl
  rw [hb]
  unfold applyEncodingDefault
  by_cases h :
      (!truthy (getField fields "encoding")
        || !(jsTypeof (getField fields "encoding") == "string")) = true
  · rw [if_pos h]
    exact ⟨Or.inr rfl, fun k hk => getField_setField_ne fields "encoding" k _ hk⟩
  · rw [if_neg h]
    exact ⟨Or.inl rfl, fun k hk => rfl⟩

/-- C8 witness: a field other than encoding keeps its value through the
in-place normalization. -/
theorem claim_c8_witness :
    getField (normalizeOpts (.obj [("file", JSValue.boolean true)])) "file" =
      getField [("file", JSValue.boolean true)] "file" :=
  (claim_c8_amended [("file", .boolean true)]).2 "file" (by decide)

/-- C4 counterexample: with options file set to true but the empty
string as input, the file rule is skipped (its guard also requires a
truthy string length), no other string rule matches, and dispatch ends
at the default provider instead of the file provider. -/
theorem claim_c4_counterexample :
    fromInput sampleEnv 1 (.str "") (.obj [("file", .boolean true)]) =
      some (.ok (.call "default" (.inputOpts (.str "")
        [("file", .boolean true), ("encoding", .str "utf8")]))) :=
  rfl

/-- C4 amended: for every non-empty string input dispatched with
normalized options whose file field is strictly the boolean true,
dispatch delegates to the file provider with the raw string and the
options, overriding any URL parsing. -/
theorem claim_c4_amended (env : Env) (fuel : Nat) (s : String) (oo : JSValue)
    (hs : s.length ≠ 0)
    (hfile : strictTrue (getField (normalizeOpts oo) "file") = true) :
    fromInput env (fuel + 1) (.str s) oo =
      some (.ok (.call "file" (.inputOpts (.str s) (normalizeOpts oo)))) := by
  rw [fromInput_str]
  unfold classifyString
  rw [hfile]
  simp [hs, bne_iff_ne]

/-- C4 witness: a one-character string with options file true goes to
the file provider with the raw string and the options. -/
theorem claim_c4_witness :
    fromInput sampleEnv 1 (.str "x") (.obj [("file", .boolean true)]) =
      some (.ok (.call "file" (.inputOpts (.str "x")
        [("file", .boolean true), ("encoding", .str "utf8")]))) :=
  claim_c4_amended sampleEnv 0 "x" (.obj [("file", .boolean true)]) (by decide) rfl

/-- C10: the empty array is buffer-like (the every-element-is-a-number
test is vacuously true), so dispatch of the empty array delegates to the
memory provider with the buffer built from the empty array, a zero
length byte buffer, rather than wrapping the array as a storage
interface or falling through to the default provider. -/
theorem claim_c10_empty_array (env : Env) (fuel : Nat) :
    isBufferLike (.array []) = true ∧
    fromInput env (fuel + 1) (.array []) .undefined =
      some (.ok (.call "memory" (.buf (.fromVal (.array []) "utf8")))) ∧
    bufBytes (.fromVal (.array []) "utf8") = some [] :=
  ⟨rfl, rfl, rfl⟩


theorem classifyString_of_protocol (env : Env) (s : String) (opts : List (String × JSValue))
    (r : Outcome) (hfile : strictTrue (getField opts "file") = false)
    (hcp : classifyProtocol env s opts = some r) :
    classifyString env s opts = some (.ok r) := by
  unfold classifyString
  rw [hfile, hcp]
  simp

theorem classifyProtocol_custom (env : Env) (s : String) (opts : List (String × JSValue))
    (p : String) (v : JSValue)
    (hp : urlProtocol s = some p)
    (h1 : strContains p "http:" = false) (h2 : strContains p "https:" = false)
    (h3 : strContains p "file:" = false)
    (hl : lookupProvider env.providers (stripColon p) = some v)
    (hv : jsTypeof v = "function") :
    classifyProtocol env s opts = some (.call (stripColon p) (.inputOpts (.str s) opts)) := by
  unfold classifyProtocol
  rw [hp]
  simp [h1, h2, h3, hl, hv]

theorem classifyProtocol_skip (env : Env) (s : String) (opts : List (String × JSValue))
    (p : String) (hp : urlProtocol s = some p)
    (h1 : strContains p "http:" = false) (h2 : strContains p "https:" = false)
    (h3 : strContains p "file:" = false)
    (hl : ∀ v, lookupProvider env.providers (stripColon p) = some v → jsTypeof v ≠ "function") :
    classifyProtocol env s opts = none := by
  unfold classifyProtocol
  rw [hp]
  cases hv : lookupProvider env.providers (stripColon p) with
  | none => simp [h1, h2, h3, hv]
  | some v => simp [h1, h2, h3, hv, hl v hv]

theorem fromInput_str_fallthrough (env : Env) (fuel : Nat) (s : String) (oo : JSValue)
    (hs : s.length ≠ 0)
    (hfile : strictTrue (getField (normalizeOpts oo) "file") = false)
    (hcp : classifyProtocol env s (normalizeOpts oo) = none) :
    fromInput env (fuel + 1) (.str s) oo =
      some (fallThroughResult env s (normalizeOpts oo)) := by
  rw [fromInput_str, classifyString_fallthrough env s _ hfile hcp]
  unfold fallThroughResult
  cases hfs : classifyFs env s with
  | some r => rfl
  | none => simp [Nat.pos_of_ne_zero hs]

theorem lookupField_registerProvider (provs : List (String × JSValue)) (name : String)
    (w : JSValue) : lookupField (registerProvider provs name w) name = some w := by
  induction provs with
  | nil => simp [registerProvider, setField, lookupField]
  | cons kv rest ih =>
    by_cases h : kv.1 = name
    · simp [registerProvider, setField, lookupField, h]
    · simpa [registerProvider, setField, lookupField, h] using ih

/-- C2 counterexample: with the non-empty protocol-free string hello
and the encoding bogus, dispatch does not return a memory handle whose
content is the encoded string: Buffer.from rejects the unknown encoding
name inside the dispatcher, so the claim fails for that
optionsOrEncoding value. -/
theorem claim_c2_counterexample :
    fromInput sampleEnv 1 (.str "hello") (.str "bogus") = some (.error .unknownEncoding) :=
  rfl

/-- C2 amended: for every non-empty string that has no parseable URL
protocol, is dispatched without a strict-true options file field, does
not probe as an existing regular file, and whose active encoding names
a known Buffer encoding (the default utf8 qualifies), dispatch
delegates to the memory provider with the buffer built from the string
and that encoding; an unknown encoding instead makes Buffer.from raise
inside the dispatcher. -/
theorem claim_c2_memory (env : Env) (fuel : Nat) (s : String) (oo : JSValue)
    (hs : s.length ≠ 0)
    (hp : urlProtocol s = none)
    (hfile : strictTrue (getField (normalizeOpts oo) "file") = false)
    (hfs : env.statFile s ≠ some true)
    (henc : isKnownEncoding (encodingOf (normalizeOpts oo)) = true) :
    fromInput env (fuel + 1) (.str s) oo =
      some (.ok (.call "memory" (.buf (.fromStr s (encodingOf (normalizeOpts oo)))))) := by
  rw [fromInput_str_fallthrough env fuel s oo hs hfile
    (classifyProtocol_none_of_no_proto env s _ hp)]
  unfold fallThroughResult
  rw [classifyFs_none env s hfs]
  simp [bufferFromString, henc, Except.map]

/-- C2 witness: dispatching the protocol-free string hello with no
options yields the memory provider call on the string with the default
utf8 encoding. -/
theorem claim_c2_witness :
    fromInput sampleEnv 1 (.str "hello") .undefined =
      some (.ok (.call "memory" (.buf (.fromStr "hello" "utf8")))) :=
  claim_c2_memory sampleEnv 0 "hello" .undefined (by decide) rfl rfl (by decide) rfl

/-- C1 counterexample: the protocol xhttp: is none of http:, https: and
file:, and a provider function is registered under the name xhttp, yet
dispatch delegates to the http provider and not to the registered
function, because the source tests the unanchored regular expressions
against the protocol and xhttp: contains http: as a substring. -/
theorem claim_c1_counterexample :
    fromInput envXhttp 1 (.str "xhttp:a") .undefined =
      some (.ok (.call "http" (.inputOpts (.str "xhttp:a") [("encoding", .str "utf8")]))) ∧
    lookupField envXhttp.providers "xhttp" = some (.func 7) ∧
    ¬ fromInput envXhttp 1 (.str "xhttp:a") .undefined =
        some (.ok (.call "xhttp" (.inputOpts (.str "xhttp:a") [("encoding", .str "utf8")]))) := by
  refine ⟨rfl, rfl, fun h => ?_⟩
  have hs : Outcome.call "http" (.inputOpts (.str "xhttp:a") [("encoding", .str "utf8")]) =
      Outcome.call "xhttp" (.inputOpts (.str "xhttp:a") [("encoding", .str "utf8")]) :=
    Except.ok.inj (Option.some.inj h)
  simp at hs

/-- C1 amended: for every string whose parsed protocol is neither
http:, https: nor file: and also does not contain one of these as a
substring (the source tests unanchored regular expressions, so a
protocol name ending in http, https or file is captured by the
built-in rules), when the options file field is not strictly true: if
a function is registered under the protocol name with the colon
stripped, dispatch delegates to it with the full original string and
the normalized options; if the name is absent from the registry AND
from the properties a plain object inherits from Object.prototype (the
name-in-object check of the source traverses the prototype chain), the
string falls through to the later string rules, with no error raised
when the active encoding is known; and if the name is unregistered but
inherited as a function (for lowercased protocol names only
constructor qualifies, read as the Object constructor), dispatch
invokes that inherited function instead of falling through. -/
theorem claim_c1_amended (env : Env) (fuel : Nat) (s p : String) (oo : JSValue)
    (hp : urlProtocol s = some p)
    (h1 : strContains p "http:" = false) (h2 : strContains p "https:" = false)
    (h3 : strContains p "file:" = false)
    (hfile : strictTrue (getField (normalizeOpts oo) "file") = false) :
    (∀ v : JSValue, lookupField env.providers (stripColon p) = some v →
        jsTypeof v = "function" →
        fromInput env (fuel + 1) (.str s) oo =
          some (.ok (.call (stripColon p) (.inputOpts (.str s) (normalizeOpts oo))))) ∧
    (lookupProvider env.providers (stripColon p) = none →
        fromInput env (fuel + 1) (.str s) oo =
          some (fallThroughResult env s (normalizeOpts oo)) ∧
        (isKnownEncoding (encodingOf (normalizeOpts oo)) = true →
          ∃ o : Outcome, fromInput env (fuel + 1) (.str s) oo = some (.ok o))) ∧
    (∀ v : JSValue, lookupField env.providers (stripColon p) = none →
        lookupField objectPrototypeProps (stripColon p) = some v →
        jsTypeof v = "function" →
        fromInput env (fuel + 1) (.str s) oo =
          some (.ok (.call (stripColon p) (.inputOpts (.str s) (normalizeOpts oo))))) := by
  refine ⟨?_, ?_, ?_⟩
  · intro v hl hv
    have hl2 : lookupProvider env.providers (stripColon p) = some v := by
      unfold lookupProvider
      rw [hl]
    rw [fromInput_str, classifyString_of_protocol env s _ _ hfile
      (classifyProtocol_custom env s _ p v hp h1 h2 h3 hl2 hv)]
  · intro hl
    have hfall := fromInput_str_fallthrough env fuel s oo (urlProtocol_length_ne_zero hp) hfile
      (classifyProtocol_skip env s _ p hp h1 h2 h3
        (fun w hw => by rw [hl] at hw; exact Option.noConfusion hw))
    refine ⟨hfall, fun henc => ?_⟩
    rw [hfall]
    unfold fallThroughResult
    cases hfs : classifyFs env s with
    | some r => exact ⟨r, rfl⟩
    | none =>
      exact ⟨.call "memory" (.buf (.fromStr s (encodingOf (normalizeOpts oo)))),
        by simp [bufferFromString, henc, Except.map]⟩
  · intro v hown hproto hv
    have hl2 : lookupProvider env.providers (stripColon p) = some v := by
      unfold lookupProvider
      rw [hown]
      exact hproto
    rw [fromInput_str, classifyString_of_protocol env s _ _ hfile
      (classifyProtocol_custom env s _ p v hp h1 h2 h3 hl2 hv)]

/-- C1 witness: with a function registered under the name data,
dispatching a data: string delegates to it with the original string
and the default-normalized options; and with nothing registered under
the name constructor, dispatching a constructor: string invokes the
function that a plain registry object inherits under that name rather
than falling through. -/
theorem claim_c1_witness :
    (fromInput envData 1 (.str "data:,hello") .undefined =
      some (.ok (.call "data" (.inputOpts (.str "data:,hello") [("encoding", .str "utf8")])))) ∧
    (fromInput sampleEnv 1 (.str "constructor:x") .undefined =
      some (.ok (.call "constructor"
        (.inputOpts (.str "constructor:x") [("encoding", .str "utf8")])))) :=
  ⟨(claim_c1_amended envData 0 "data:,hello" "data:" .undefined rfl rfl rfl rfl rfl).1
      (.func 7) rfl rfl,
   (claim_c1_amended sampleEnv 0 "constructor:x" "constructor:" .undefined
      rfl rfl rfl rfl rfl).2.2 (.func 100) rfl rfl rfl⟩

/-- C9 counterexample: a non-function value is registered under the
name data, and dispatching a data: string does not fail at any
invocation attempt: the source guards the custom-protocol rule with a
typeof function check, never invokes the entry, and the string falls
through to the memory rule, returning an ok outcome. -/
theorem claim_c9_counterexample :
    lookupField envDataBad.providers "data" = some (.str "oops") ∧
    fromInput envDataBad 1 (.str "data:,hello") .undefined =
      some (.ok (.call "memory" (.buf (.fromStr "data:,hello" "utf8")))) :=
  ⟨rfl, rfl⟩

/-- C9 amended: registering any value in the provider registry is
permitted without validation (a registered value is stored and looked
up as-is, shadowing any inherited property), but a non-function entry
is never invoked: the custom-protocol rule checks typeof function
first, so a string whose protocol name maps to a registered
non-function entry falls through to the later string rules instead of
failing, with no error raised when the active encoding is known. -/
theorem claim_c9_amended (env : Env) (fuel : Nat) (s p : String) (oo v : JSValue)
    (hp : urlProtocol s = some p)
    (h1 : strContains p "http:" = false) (h2 : strContains p "https:" = false)
    (h3 : strContains p "file:" = false)
    (hfile : strictTrue (getField (normalizeOpts oo) "file") = false)
    (hreg : lookupField env.providers (stripColon p) = some v)
    (hnf : jsTypeof v ≠ "function") :
    (∀ (provs : List (String × JSValue)) (name : String) (w : JSValue),
        lookupField (registerProvider provs name w) name = some w) ∧
    fromInput env (fuel + 1) (.str s) oo =
      some (fallThroughResult env s (normalizeOpts oo)) ∧
    (isKnownEncoding (encodingOf (normalizeOpts oo)) = true →
      ∃ o : Outcome, fromInput env (fuel + 1) (.str s) oo = some (.ok o)) := by
  have hfall := fromInput_str_fallthrough env fuel s oo (urlProtocol_length_ne_zero hp) hfile
    (classifyProtocol_skip env s _ p hp h1 h2 h3
      (fun w hw => by
        rw [show lookupProvider env.providers (stripColon p) = some v by
          unfold lookupProvider; rw [hreg]] at hw
        cases hw
        exact hnf))
  refine ⟨lookupField_registerProvider, hfall, fun henc => ?_⟩
  rw [hfall]
  unfold fallThroughResult
  cases hfs : classifyFs env s with
  | some r => exact ⟨r, rfl⟩
  | none =>
    exact ⟨.call "memory" (.buf (.fromStr s (encodingOf (normalizeOpts oo)))),
      by simp [bufferFromString, henc, Except.map]⟩

/-- C9 witness: with the number one registered under the name blah,
dispatching a blah: string is not a failure: it falls through to the
memory provider. -/
theorem claim_c9_witness :
    fromInput envBlahBad 1 (.str "blah:x") .undefined =
      some (.ok (.call "memory" (.buf (.fromStr "blah:x" "utf8")))) :=
  (claim_c9_amended envBlahBad 0 "blah:x" "blah:" .undefined (.num (.finite 1))
    rfl rfl rfl rfl rfl rfl (by decide)).2.1


theorem fromInput_finite_nonneg (env : Env) (fuel : Nat) (oo : JSValue) (q : ℚ)
    (hq : 0 ≤ q) :
    fromInput env (fuel + 1) (.num (.finite q)) oo =
      some (.ok (.call "memory" (.buf (.alloc q)))) := by
  simp [fromInput, isNumberV, jsGeZero, numOf, bufferAlloc, hq, Except.map]

theorem fromInput_finite_neg (env : Env) (fuel : Nat) (oo : JSValue) (q : ℚ)
    (hq : q < 0) :
    fromInput env (fuel + 1) (.num (.finite q)) oo =
      some (.ok (.call "default" (.inputOpts (.num (.finite q)) (normalizeOpts oo)))) := by
  simp [fromInput, isNumberV, jsGeZero, isBufferLike, isObjectNonNull, not_le.mpr hq]

theorem bufBytes_alloc_nat (n : Nat) :
    bufBytes (.alloc (n : ℚ)) = some (List.replicate n 0) := by
  simp [bufBytes, allocLen]

theorem fromInput_obj (env : Env) (fuel : Nat) (fields : List (String × JSValue))
    (oo : JSValue) (hnb : isBufferLike (.obj fields) = false) :
    fromInput env (fuel + 1) (.obj fields) oo =
      some (.ok (if truthy (getField fields "readable") || truthy (getField fields "writable")
          || truthy (getField fields "statable") || truthy (getField fields "deletable")
        then .pass (.obj fields) else .rasWrap (.obj fields))) := by
  cases h : (truthy (getField fields "readable") || truthy (getField fields "writable")
      || truthy (getField fields "statable") || truthy (getField fields "deletable")) with
  | true => simp [fromInput, isNumberV, jsGeZero, hnb, isObjectNonNull, fieldOfValue, h]
  | false => simp [fromInput, isNumberV, jsGeZero, hnb, isObjectNonNull, fieldOfValue, h]

/-- C5: for every non-buffer-like plain object input, if any of the
four capability fields readable, writable, statable, deletable is
truthy then dispatch returns the exact same object (identity
passthrough, no wrapping); otherwise it wraps the object through the
generic random-access-storage constructor with the object forwarded as
its operation implementations. -/
theorem claim_c5_object (env : Env) (fuel : Nat) (fields : List (String × JSValue))
    (oo : JSValue) (hnb : isBufferLike (.obj fields) = false) :
    fromInput env (fuel + 1) (.obj fields) oo =
      some (.ok (if truthy (getField fields "readable") || truthy (getField fields "writable")
          || truthy (getField fields "statable") || truthy (getField fields "deletable")
        then .pass (.obj fields) else .rasWrap (.obj fields))) :=
  fromInput_obj env fuel fields oo hnb

/-- C5 witness: an object exposing a truthy readable flag is returned
as the very same object. -/
theorem claim_c5_witness :
    fromInput sampleEnv 1 (.obj [("readable", .boolean true)]) .undefined =
      some (.ok (.pass (.obj [("readable", .boolean true)]))) :=
  claim_c5_object sampleEnv 0 [("readable", .boolean true)] .undefined rfl

/-- C3 counterexample: positive infinity is a well-formed number (not
not-a-number) and at least zero, yet dispatch of it is not a memory
delegation with a zero-filled buffer of that length: the Buffer.alloc
size contract rejects an infinite size while the dispatcher
materializes the provider argument. -/
theorem claim_c3_counterexample :
    isNumberV (.num .inf) = true ∧ jsGeZero (.num .inf) = true ∧
    fromInput sampleEnv 1 (.num .inf) .undefined = some (.error .allocSizeOutOfRange) :=
  ⟨rfl, rfl, rfl⟩

/-- C3 amended: every finite number at least zero is delegated to the
memory provider with a zero-filled buffer of that length (truncated to
an integer for non-integer sizes); in particular for every non-negative
integer n the buffer holds exactly n zero bytes. Negative or
not-a-number numeric inputs fall through to the default provider.
Infinite sizes are rejected by the Buffer.alloc size contract instead
of being delegated. -/
theorem claim_c3_amended (env : Env) (fuel : Nat) (oo : JSValue) :
    (∀ q : ℚ, 0 ≤ q →
      fromInput env (fuel + 1) (.num (.finite q)) oo =
        some (.ok (.call "memory" (.buf (.alloc q))))) ∧
    (∀ n : Nat, bufBytes (.alloc (n : ℚ)) = some (List.replicate n 0)) ∧
    (∀ q : ℚ, q < 0 →
      fromInput env (fuel + 1) (.num (.finite q)) oo =
        some (.ok (.call "default" (.inputOpts (.num (.finite q)) (normalizeOpts oo))))) ∧
    fromInput env (fuel + 1) (.num .nan) oo =
      some (.ok (.call "default" (.inputOpts (.num .nan) (normalizeOpts oo)))) :=
  ⟨fun q hq => fromInput_finite_nonneg env fuel oo q hq,
   bufBytes_alloc_nat,
   fun q hq => fromInput_finite_neg env fuel oo q hq,
   rfl⟩

/-- C3 witness: dispatch of sixteen yields the memory provider with a
sixteen-byte zero-filled allocation, and a negative input falls to the
default provider. -/
theorem claim_c3_witness :
    fromInput sampleEnv 1 (.num (.finite 16)) .undefined =
      some (.ok (.call "memory" (.buf (.alloc 16)))) ∧
    bufBytes (.alloc ((16 : Nat) : ℚ)) = some (List.replicate 16 0) ∧
    fromInput sampleEnv 1 (.num (.finite (-1))) .undefined =
      some (.ok (.call "default" (.inputOpts (.num (.finite (-1)))
        [("encoding", .str "utf8")]))) :=
  ⟨(claim_c3_amended sampleEnv 0 .undefined).1 16 (by norm_num),
   (claim_c3_amended sampleEnv 0 .undefined).2.1 16,
   (claim_c3_amended sampleEnv 0 .undefined).2.2.1 (-1) (by norm_num)⟩

/-- C6 counterexample: the dispatcher is not error-free on every input
and option value: three documented dispatcher-level throws exist, all
raised while the dispatch call materializes the memory provider
argument, before any provider factory runs. Buffer.alloc rejects the
well-formed number positive infinity, Buffer.from rejects the unknown
encoding name bogus for a string input, and Buffer.from rejects a
length beyond the byte length of an array-buffer input. -/
theorem claim_c6_counterexample :
    fromInput sampleEnv 1 (.num .inf) (.obj []) = some (.error .allocSizeOutOfRange) ∧
    fromInput sampleEnv 1 (.str "hi") (.str "bogus") = some (.error .unknownEncoding) ∧
    fromInput sampleEnv 1 (.arrayBuffer 0 2) (.obj [("length", .num (.finite 100))]) =
      some (.error .bufferBoundsOutOfRange) := by
  refine ⟨rfl, rfl, ?_⟩
  have hopts : normalizeOpts (.obj [("length", JSValue.num (.finite 100))]) =
      [("length", .num (.finite 100)), ("encoding", .str "utf8")] := rfl
  have h1 : jsOrZero (getField [("length", JSValue.num (.finite 100)),
      ("encoding", JSValue.str "utf8")] "byteOffset") = .num (.finite 0) := rfl
  have h2 : getField [("length", JSValue.num (.finite 100)),
      ("encoding", JSValue.str "utf8")] "length" = .num (.finite 100) := rfl
  have hchk : fromArrayBufCheck 2
      (jsOrZero (getField [("length", JSValue.num (.finite 100)),
        ("encoding", JSValue.str "utf8")] "byteOffset"))
      (getField [("length", JSValue.num (.finite 100)),
        ("encoding", JSValue.str "utf8")] "length") = .error .bufferBoundsOutOfRange := by
    rw [h1, h2]
    norm_num [fromArrayBufCheck, toNumberModel, lengthCheck]
  simp [fromInput, isNumberV, jsGeZero, isBufferLike, hopts, hchk]

/-- C6 amended: the dispatcher recovers every URL parse and filesystem
probe failure internally, and the only errors it can itself raise
occur while materializing the memory provider byte-buffer argument:
Buffer.alloc on an infinite numeric input, Buffer.from on a string
with an unknown encoding name, and Buffer.from on an array buffer with
an out-of-bounds offset or length. Positively: every finite number at
least zero, including non-integers, yields the memory delegation
without throwing; every other number except positive infinity falls
through without error; every string dispatched with a known active
encoding returns an ok outcome; every non-function input that is not a
number, a string or an array buffer returns an ok outcome (for
factory-function input the source recurses unboundedly, which the
model renders as fuel exhaustion, not as an error); and an
array-buffer input whose offset and length options pass the bounds
check is delegated to the memory provider without error. -/
theorem claim_c6_amended :
    (∀ (env : Env) (fuel : Nat) (oo : JSValue) (q : ℚ), 0 ≤ q →
        fromInput env (fuel + 1) (.num (.finite q)) oo =
          some (.ok (.call "memory" (.buf (.alloc q))))) ∧
    (∀ (env : Env) (fuel : Nat) (oo : JSValue) (n : JSNum), n ≠ .inf →
        ∃ o : Outcome, fromInput env (fuel + 1) (.num n) oo = some (.ok o)) ∧
    (∀ (env : Env) (fuel : Nat) (s : String) (oo : JSValue),
        isKnownEncoding (encodingOf (normalizeOpts oo)) = true →
        ∃ o : Outcome, fromInput env (fuel + 1) (.str s) oo = some (.ok o)) ∧
    (∀ (env : Env) (fuel : Nat) (input oo : JSValue),
        (∀ fid : Nat, input ≠ .func fid) →
        (∀ n : JSNum, input ≠ .num n) →
        (∀ s : String, input ≠ .str s) →
        (∀ i l : Nat, input ≠ .arrayBuffer i l) →
        ∃ o : Outcome, fromInput env (fuel + 1) input oo = some (.ok o)) ∧
    (∀ (env : Env) (fuel : Nat) (oo : JSValue) (i blen : Nat),
        fromArrayBufCheck blen (jsOrZero (getField (normalizeOpts oo) "byteOffset"))
          (getField (normalizeOpts oo) "length") = .ok () →
        fromInput env (fuel + 1) (.arrayBuffer i blen) oo =
          some (.ok (.call "memory" (.buf (.fromArrayBuf i
            (jsOrZero (getField (normalizeOpts oo) "byteOffset"))
            (getField (normalizeOpts oo) "length")))))) := by
  refine ⟨fun env fuel oo q hq => fromInput_finite_nonneg env fuel oo q hq, ?_, ?_, ?_, ?_⟩
  · intro env fuel oo n hn
    cases n with
    | nan => exact ⟨_, rfl⟩
    | inf => exact absurd rfl hn
    | negInf => exact ⟨_, rfl⟩
    | finite q =>
      by_cases hq : 0 ≤ q
      · exact ⟨_, fromInput_finite_nonneg env fuel oo q hq⟩
      · exact ⟨_, fromInput_finite_neg env fuel oo q (lt_of_not_le hq)⟩
  · intro env fuel s oo henc
    rw [fromInput_str]
    unfold classifyString
    by_cases h2a : (s.length != 0 && strictTrue (getField (normalizeOpts oo) "file")) = true
    · rw [if_pos h2a]
      exact ⟨_, rfl⟩
    · rw [if_neg h2a]
      cases hcp : classifyProtocol env s (normalizeOpts oo) with
      | some r => exact ⟨r, rfl⟩
      | none =>
        cases hfs : classifyFs env s with
        | some r => exact ⟨r, rfl⟩
        | none =>
          by_cases hlen : s.length > 0
          · rw [if_pos hlen]
            exact ⟨.call "memory" (.buf (.fromStr s (encodingOf (normalizeOpts oo)))),
              by simp [bufferFromString, henc, Except.map]⟩
          · rw [if_neg hlen]
            exact ⟨_, rfl⟩
  · intro env fuel input oo hfunc hnum hstr hab
    cases input with
    | undefined => exact ⟨_, rfl⟩
    | null => exact ⟨_, rfl⟩
    | boolean b => exact ⟨_, rfl⟩
    | str s => exact absurd rfl (hstr s)
    | num n => exact absurd rfl (hnum n)
    | buffer bid => exact ⟨_, rfl⟩
    | arrayBuffer i l => exact absurd rfl (hab i l)
    | array elems =>
      by_cases ha : isBufferLike (.array elems) = true
      · exact ⟨.call "memory" (.buf (.fromVal (.array elems) (encodingOf (normalizeOpts oo)))),
          by simp [fromInput, isNumberV, jsGeZero, ha]⟩
      · rw [Bool.not_eq_true] at ha
        exact ⟨.rasWrap (.array elems),
          by simp [fromInput, isNumberV, jsGeZero, ha, isObjectNonNull, fieldOfValue, truthy]⟩
    | obj fields =>
      by_cases ha : isBufferLike (.obj fields) = true
      · exact ⟨.call "memory" (.buf (.fromVal (.obj fields) (encodingOf (normalizeOpts oo)))),
          by simp [fromInput, isNumberV, jsGeZero, ha]⟩
      · rw [Bool.not_eq_true] at ha
        exact ⟨_, fromInput_obj env fuel fields oo ha⟩
    | func fid => exact absurd rfl (hfunc fid)
  · intro env fuel oo i blen hchk
    simp [fromInput, isNumberV, jsGeZero, isBufferLike, hchk]

/-- C6 witness: dispatch of the non-integer three-halves returns a
memory handle without error, and a string dispatched with the known
encoding hex returns an ok outcome. -/
theorem claim_c6_witness :
    fromInput sampleEnv 1 (.num (.finite (3 / 2))) .undefined =
      some (.ok (.call "memory" (.buf (.alloc (3 / 2))))) ∧
    ∃ o : Outcome, fromInput sampleEnv 1 (.str "68656c6c6f") (.str "hex") = some (.ok o) :=
  ⟨claim_c6_amended.1 sampleEnv 0 .undefined (3 / 2) (by norm_num),
   claim_c6_amended.2.2.1 sampleEnv 0 "68656c6c6f" (.str "hex") rfl⟩

end RASFrom
